import Mathlib

/-!
Verification of the data-block module (`src/fastai/data_block.py`): a shallow
embedding of the `ItemList` / `CategoryList` / `MultiCategoryList` class
hierarchy, the `LabelList` paired dataset, and the `ItemLists` / `LabelLists`
split container, together with theorems settling the specified properties.

Python values are embedded in the universal type `PyVal`; Python exceptions in
`PyError`; fallible operations return `Except PyError _`.  Dynamic dispatch on
the class hierarchy is embedded by tagging each collection with its concrete
class (`CKind`) and matching on the tag exactly where the source dispatches.
-/

set_option autoImplicit false

namespace DataBlock

/-- A universal type for the Python values handled by this module: strings,
token arrays (for multi-label rows), file paths (as segment lists), integers,
the labeled-category value objects, and Python `None`. -/
inductive PyVal where
  | str : String → PyVal
  | strs : List String → PyVal
  | pth : List String → PyVal
  | num : Int → PyVal
  | cat : Nat → PyVal → PyVal
  | mcat : List Nat → PyVal → PyVal
  | none : PyVal
deriving DecidableEq

/-- The Python exceptions that the embedded code can raise. -/
inductive PyError where
  | typeError : PyError
  | indexError : PyError
  | keyError : PyError
  | attributeError : PyError
  | assertionError : String → PyError
deriving DecidableEq

/-- Concrete class of a collection: `ItemList`, `CategoryList` or
`MultiCategoryList`. -/
inductive CKind where
  | base : CKind
  | category : CKind
  | multicategory : CKind
deriving DecidableEq

/-- `True` on `Except.ok`; embeds "the call did not raise". -/
def exOk {α : Type} : Except PyError α → Bool
  | .ok _ => true
  | .error _ => false

/-- Modelled from the spec: `uniqueify` (defined in the repository outside
`src`) derives the class vocabulary as the ordered set of distinct values
across all items, in first-occurrence order. -/
def uniqueify (xs : List PyVal) : List PyVal :=
  xs.foldl (fun acc x => if x ∈ acc then acc else acc ++ [x]) []

/-- Modelled from the spec: `index_row` (defined in the repository outside
`src`) slices the auxiliary side-table to the given indices, and is the
identity on a missing (`None`) table. -/
def index_row (a : Option (List PyVal)) (idxs : List Nat) : Option (List PyVal) :=
  a.map (fun t => idxs.map (fun i => t.getD i PyVal.none))

/-- `np.concatenate` over an array of token arrays, as used by
`MultiCategoryList.__init__` to pool all sub-tokens. -/
def flattenItems (items : List PyVal) : List PyVal :=
  items.flatMap (fun v => match v with
    | .strs xs => xs.map PyVal.str
    | v => [v])

/-- The collection hierarchy of the module: one record tagged with its concrete
class.  Fields are the attributes set by `ItemList.__init__` (`items`,
`create_func`, `path`, `_label_cls`, `xtra`) plus `classes` which is only
meaningful on the category kinds. -/
structure ItemList where
  kind : CKind
  items : List PyVal
  createFunc : Option (PyVal → PyVal)
  path : List String
  labelCls : Option CKind
  xtra : Option (List PyVal)
  classes : List PyVal

/-- `ItemList.__init__(items, create_func, path, label_cls, xtra)`. -/
def ItemList.init (items : List PyVal) (createFunc : Option (PyVal → PyVal))
    (path : List String) (labelCls : Option CKind) (xtra : Option (List PyVal)) : ItemList :=
  { kind := .base, items := items, createFunc := createFunc, path := path,
    labelCls := labelCls, xtra := xtra, classes := [] }

/-- `CategoryList.__init__(items, classes=None)`: the parent constructor with
the items only, then `classes` kept or derived by `uniqueify`. -/
def CategoryList.init (items : List PyVal) (classes : Option (List PyVal)) : ItemList :=
  { kind := .category, items := items, createFunc := Option.none, path := [],
    labelCls := Option.none, xtra := Option.none,
    classes := classes.getD (uniqueify items) }

/-- `MultiCategoryList.__init__(items, classes=None)` on the `sep=None` path:
`classes` kept or derived from the pooled sub-tokens. -/
def MultiCategoryList.init (items : List PyVal) (classes : Option (List PyVal)) : ItemList :=
  { kind := .multicategory, items := items, createFunc := Option.none, path := [],
    labelCls := Option.none, xtra := Option.none,
    classes := classes.getD (uniqueify (flattenItems items)) }

/-- `self.class2idx`: the dict `{v: k for k, v in enumerate(self.classes)}`
(later entries overwrite earlier ones, as in a Python dict comprehension). -/
def ItemList.class2idx (c : ItemList) (v : PyVal) : Option Nat :=
  c.classes.enum.foldl (fun acc kv => if kv.2 = v then some kv.1 else acc) Option.none

/-- Modelled from the spec: `Category.create(o, class2idx)` (defined in the
repository outside `src`) resolves the raw value through the class-to-index
mapping into a labeled-category value object, and fails with a lookup error
when the value is not in `classes`. -/
def Category.create (o : PyVal) (c2i : PyVal → Option Nat) : Except PyError PyVal :=
  match c2i o with
  | some k => .ok (.cat k o)
  | Option.none => .error .keyError

/-- Modelled from the spec: `MultiCategory.create` (defined in the repository
outside `src`) resolves each sub-token independently and returns the set of
indices wrapped in a multi-category value object. -/
def MultiCategory.create (o : PyVal) (c2i : PyVal → Option Nat) : Except PyError PyVal :=
  match o with
  | .strs xs => do
      let idxs ← xs.mapM (fun t => match c2i (PyVal.str t) with
        | some k => Except.ok k
        | Option.none => Except.error PyError.keyError)
      Except.ok (.mcat idxs o)
  | _ => .error .typeError

/-- `ItemList.get(i)` as defined on the base class: the i-th raw item, passed
through `create_func` when one is set. -/
def ItemList.get_base (c : ItemList) (i : Nat) : Except PyError PyVal :=
  match c.items.get? i with
  | Option.none => .error .indexError
  | some item => .ok (match c.createFunc with
      | some f => f item
      | Option.none => item)

/-- `self.get(i)` with dynamic dispatch: the base access on `ItemList`, the
`Category.create` wrap on `CategoryList`, the `MultiCategory.create` wrap on
`MultiCategoryList`. -/
def ItemList.get (c : ItemList) (i : Nat) : Except PyError PyVal :=
  match c.kind with
  | .base => c.get_base i
  | .category => do
      let o ← c.get_base i
      Category.create o c.class2idx
  | .multicategory => do
      let o ← c.get_base i
      MultiCategory.create o c.class2idx

/-- `self.new(...)` with dynamic dispatch.  `xtraKw = some v` embeds a call
that passes the keyword argument `xtra=v`; `ItemList.new` accepts it, while
`CategoryList.new(self, items)` (inherited by `MultiCategoryList`) does not
declare it, so the call raises `TypeError`.  When accepted, `CategoryList.new`
rebuilds `self.__class__(items, self.classes)`. -/
def ItemList.new (c : ItemList) (items : List PyVal) (xtraKw : Option (Option (List PyVal))) :
    Except PyError ItemList :=
  match c.kind with
  | .base => .ok { kind := .base, items := items, createFunc := c.createFunc,
                   path := c.path, labelCls := Option.none,
                   xtra := xtraKw.getD Option.none, classes := [] }
  | .category =>
      if xtraKw.isSome then .error .typeError
      else .ok (CategoryList.init items (some c.classes))
  | .multicategory =>
      if xtraKw.isSome then .error .typeError
      else .ok (MultiCategoryList.init items (some c.classes))

/-- `self[i]` for an integer index: `self.get(i)`. -/
def ItemList.getitemInt (c : ItemList) (i : Nat) : Except PyError PyVal :=
  c.get i

/-- `self[idxs]` for an index array:
`self.new(self.items[idxs], xtra=index_row(self.xtra, idxs))`.  The fancy
indexing of `self.items` is evaluated first (an out-of-range entry raises
`IndexError`), then `new` is called with the `xtra` keyword argument. -/
def ItemList.getitemVec (c : ItemList) (idxs : List Nat) : Except PyError ItemList :=
  if idxs.all (fun i => i < c.items.length) then
    c.new (idxs.map (fun i => c.items.getD i PyVal.none)) (some (index_row c.xtra idxs))
  else .error .indexError

/-- `str(o)`: a path renders as its segments joined by `/`; a string as
itself. -/
def strOfItem : PyVal → String
  | .pth segs => "/".intercalate segs
  | .str s => s
  | _ => ""

/-- `o.name`: the last segment of a path. -/
def nameOfItem : PyVal → String
  | .pth segs => segs.getD (segs.length - 1) ""
  | .str s => s
  | _ => ""

/-- `o.parent.name`: the next-to-last segment of a path. -/
def parentName : PyVal → PyVal
  | .pth segs => .str (segs.getD (segs.length - 2) "")
  | v => v

/-- The string searched by `label_from_re._inner`:
`str(o if full_path else o.name)`. -/
def reSel (fullPath : Bool) (o : PyVal) : String :=
  if fullPath then strOfItem o else nameOfItem o

/-- `LabelList(x, y, ...)`: the paired dataset.  The transform pipeline itself
is an external collaborator (`apply_tfms`); the embedding keeps the
`tfm_y` flag and takes the pipeline application as a function parameter where
indexing needs it. -/
structure LabelList where
  x : ItemList
  y : ItemList
  tfmY : Bool

/-- `LabelList.__len__`: the length of `x`. -/
def LabelList.len (l : LabelList) : Nat := l.x.items.length

/-- `ItemList.create_label_list(labels, label_cls)`: resolve the label class
(argument, else the collection's own hint, else the collection's class) and
pair `self` with the freshly constructed label collection. -/
def constructCls (k : CKind) (labels : List PyVal) : ItemList :=
  match k with
  | .base => ItemList.init labels Option.none [] Option.none Option.none
  | .category => CategoryList.init labels Option.none
  | .multicategory => MultiCategoryList.init labels Option.none

/-- `ItemList.create_label_list`. -/
def ItemList.create_label_list (c : ItemList) (labels : List PyVal)
    (labelCls : Option CKind) : LabelList :=
  let k := (labelCls <|> c.labelCls).getD c.kind
  { x := c, y := constructCls k labels, tfmY := false }

/-- `ItemList.label_from_func(func, label_cls)`: one label per item. -/
def ItemList.label_from_func (c : ItemList) (f : PyVal → PyVal)
    (labelCls : Option CKind) : LabelList :=
  c.create_label_list (c.items.map f) labelCls

/-- `ItemList.label_from_folder(label_cls)`: label by parent folder name,
defaulting the label class to `CategoryList`. -/
def ItemList.label_from_folder (c : ItemList) (labelCls : Option CKind) : LabelList :=
  c.label_from_func parentName (some (labelCls.getD .category))

/-- A compiled regex pattern, abstracting the external `re` engine: `src` is
the pattern text and `search s` returns the first capture group of the first
match in `s`, or `none` when the pattern does not match. -/
structure RePat where
  src : String
  search : String → Option String

/-- The rendering of the compiled pattern inside the f-string
`f'Failed to find "{pat}" in "{s}"'`. -/
def patRepr (p : String) : String := "re.compile(" ++ (p ++ ")")

/-- The assertion message of `label_from_re._inner`. -/
def reMsg (p s : String) : String :=
  "Failed to find \x22" ++ (patRepr p ++ ("\x22 in \x22" ++ (s ++ "\x22")))

/-- The list comprehension `[_inner(o) for o in self.items]` of
`label_from_re`: sequential, stopping at the first failed assertion. -/
def reLabels (pat : RePat) (fullPath : Bool) : List PyVal → Except PyError (List PyVal)
  | [] => .ok []
  | o :: os =>
    match pat.search (reSel fullPath o) with
    | some g => do
        let rest ← reLabels pat fullPath os
        .ok (PyVal.str g :: rest)
    | Option.none => .error (.assertionError (reMsg pat.src (reSel fullPath o)))

/-- `ItemList.label_from_re(pat, label_cls, full_path)`. -/
def ItemList.label_from_re (c : ItemList) (pat : RePat) (labelCls : Option CKind)
    (fullPath : Bool) : Except PyError LabelList := do
  let labels ← reLabels pat fullPath c.items
  .ok (c.create_label_list labels labelCls)

/-- What a split container holds on each side: a raw collection or a paired
dataset. -/
inductive Ds where
  | il : ItemList → Ds
  | ll : LabelList → Ds

/-- `isinstance(·, LabelList)`. -/
def Ds.isLL : Ds → Bool
  | .ll _ => true
  | .il _ => false

/-- The runtime class of a split container: `ItemLists` (raw) or `LabelLists`
(labeled). -/
inductive ContKind where
  | raw : ContKind
  | labeled : ContKind
deriving DecidableEq

/-- `ItemLists(path, train, valid, test=None)`.  The container always starts
with the runtime class `ItemLists`; the class is swapped to `LabelLists` only
by the forwarding mechanism. -/
structure ItemLists where
  path : List String
  train : Ds
  valid : Ds
  test : Option Ds
  ckind : ContKind

/-- `ItemList.split_by_idxs(train_idx, valid_idx)`:
`self._split(self.path, self[train_idx], self[valid_idx])`. -/
def ItemList.split_by_idxs (c : ItemList) (trainIdx validIdx : List Nat) :
    Except PyError ItemLists := do
  let tr ← c.getitemVec trainIdx
  let va ← c.getitemVec validIdx
  .ok { path := c.path, train := .il tr, valid := .il va, test := Option.none,
        ckind := .raw }

/-- The comprehension `[i for i, o in enumerate(self.items) if i in valid_idx]`
of `split_by_idx`. -/
def splitValidList (n : Nat) (validIdx : List Nat) : List Nat :=
  (List.range n).filter (fun i => i ∈ validIdx)

/-- The comprehension
`[i for i, o in enumerate(self.items) if i not in valid_idx]` of
`split_by_idx`. -/
def splitTrainList (n : Nat) (validIdx : List Nat) : List Nat :=
  (List.range n).filter (fun i => i ∉ validIdx)

/-- `ItemList.split_by_idx(valid_idx)`. -/
def ItemList.split_by_idx (c : ItemList) (validIdx : List Nat) :
    Except PyError ItemLists :=
  c.split_by_idxs (splitTrainList c.items.length validIdx)
    (splitValidList c.items.length validIdx)

/-- `o.relative_to(self.path).parts[0]`. -/
def relPartsHead (o : PyVal) (path : List String) : String :=
  match o with
  | .pth segs => (segs.drop path.length).getD 0 ""
  | _ => ""

/-- `ItemList._get_by_folder(name)`. -/
def ItemList.get_by_folder (c : ItemList) (name : String) : List Nat :=
  (List.range c.items.length).filter
    (fun i => relPartsHead (c.items.getD i PyVal.none) c.path = name)

/-- `ItemList.split_by_folder(train, valid)`. -/
def ItemList.split_by_folder (c : ItemList) (train valid : String) :
    Except PyError ItemLists :=
  c.split_by_idxs (c.get_by_folder train) (c.get_by_folder valid)

/-- Python `int()` on a rational: truncation toward zero. -/
def pyInt (q : ℚ) : Int :=
  if 0 ≤ q then ⌊q⌋ else -(⌊-q⌋)

/-- The Python slice `l[:cut]` for a possibly negative `cut`. -/
def pySliceTo (l : List Nat) (cut : Int) : List Nat :=
  if cut < 0 then l.take (l.length - cut.natAbs) else l.take cut.toNat

/-- The external `np.random` generator, abstracted to a pure interface over a
global state: `seedFn` is `np.random.seed`, `permFn st n` the permutation of
`range(n)` that `np.random.permutation` draws from state `st`. -/
structure NpRandom where
  seedFn : Nat → Nat
  permFn : Nat → Nat → List Nat

/-- `ItemList.random_split_by_pct(valid_pct, seed)` run with the global
generator state `st`: an explicit seed replaces the state, then the first
`int(valid_pct * len(self))` entries of the drawn permutation become the
validation index set. -/
def ItemList.random_split_by_pct (c : ItemList) (rng : NpRandom) (st : Nat)
    (validPct : ℚ) (seed : Option Nat) : Except PyError ItemLists :=
  let st1 := match seed with
    | some s => rng.seedFn s
    | Option.none => st
  let randIdx := rng.permFn st1 c.items.length
  let cut := pyInt (validPct * (c.items.length : ℚ))
  c.split_by_idx (pySliceTo randIdx cut)

/-- An attribute value produced by `getattr` on a train/valid side: a plain
value or a bound method (already closed over its receiver). -/
inductive Attr where
  | val : PyVal → Attr
  | method : (List PyVal → Ds) → Attr

/-- `ItemLists.__getattr__(k)` followed by the call of the returned closure
with `args`, for an attribute model `lookup` (embedding `getattr(obj, k)`;
`none` means the attribute is missing and `getattr` raises).  A non-callable
attribute of train is returned as-is; a method is looked up on both sides,
invoked on both with the same arguments, the results replace `train` and
`valid`, and the runtime class is promoted to `LabelLists` when the new train
is a `LabelList`. -/
def ItemLists.getattrCall (c : ItemLists) (lookup : Ds → String → Option Attr)
    (k : String) (args : List PyVal) : Except PyError (PyVal ⊕ ItemLists) :=
  match lookup c.train k with
  | Option.none => .error .attributeError
  | some (.val v) => .ok (.inl v)
  | some (.method ft) =>
      match lookup c.valid k with
      | Option.none => .error .attributeError
      | some (.val _) => .error (.assertionError "isinstance(fv, Callable)")
      | some (.method fv) =>
          let tr := ft args
          let va := fv args
          let k : ContKind := if tr.isLL then .labeled else c.ckind
          .ok (.inr { c with train := tr, valid := va, ckind := k })

/-- `LabelList.__getitem__(i)` for an integer index, with the external
`apply_tfms` represented by `tfm`: the input always passes through the
pipeline, the label only when `tfm_y` is set. -/
def LabelList.getitemInt (l : LabelList) (tfm : PyVal → PyVal) (i : Nat) :
    Except PyError (PyVal × PyVal) := do
  let x ← l.x.get i
  let y ← l.y.get i
  .ok (tfm x, if l.tfmY then tfm y else y)

/-- `LabelList.__getitem__(idxs)` for an index array:
`self.new(self.x[idxs], self.y[idxs])`. -/
def LabelList.getitemVec (l : LabelList) (idxs : List Nat) :
    Except PyError LabelList := do
  let x ← l.x.getitemVec idxs
  let y ← l.y.getitemVec idxs
  .ok { x := x, y := y, tfmY := l.tfmY }

/-- `LabelLists.add_test(items, label=None)` with the external `apply_tfms`
represented by `tfm`: a missing label is read off the first training pair,
the items are wrapped by the validation side's `x` and `y` collections, and
the result installed as `self.test`. -/
def ItemLists.add_test (c : ItemLists) (tfm : PyVal → PyVal)
    (items : List PyVal) (label : Option PyVal) : Except PyError ItemLists :=
  match c.train, c.valid with
  | .ll tr, .ll va => do
      let lab ← (match label with
        | some l => Except.ok l
        | Option.none => do
            let p ← tr.getitemInt tfm 0
            Except.ok p.2)
      let x ← va.x.new items Option.none
      let y ← va.y.new (List.replicate x.items.length lab) Option.none
      .ok { c with test := some (.ll { x := x, y := y, tfmY := va.tfmY }) }
  | _, _ => .error .attributeError

/-- Python `getattr(obj, k, default)` over an attribute table. -/
def pyGetattrD (attrs : List (String × PyVal)) (k : String) (dflt : PyVal) : PyVal :=
  (attrs.lookup k).getD dflt

/-- Python `getattr(obj, k)` over an attribute table: raises when missing. -/
def pyGetattr (attrs : List (String × PyVal)) (k : String) : Except PyError PyVal :=
  match attrs.lookup k with
  | some v => .ok v
  | Option.none => .error .attributeError

/-- `LabelList.__getattr__(k)` over the dynamic attribute tables of `x` and
`y`: `res = getattr(self.x, k, None)`, returned when it `is not None`, else
`getattr(self.y, k)`. -/
def LabelList.getattrFB (xAttrs yAttrs : List (String × PyVal)) (k : String) :
    Except PyError PyVal :=
  let res := pyGetattrD xAttrs k PyVal.none
  if res ≠ PyVal.none then .ok res else pyGetattr yAttrs k

/-! ### Helper lemmas -/

theorem new_none_ok (c : ItemList) (items : List PyVal) :
    ∃ c2, c.new items Option.none = Except.ok c2 ∧ c2.items = items := by
  unfold ItemList.new
  cases c.kind
  · exact ⟨_, rfl, rfl⟩
  · refine ⟨CategoryList.init items (some c.classes), ?_, rfl⟩
    simp
  · refine ⟨MultiCategoryList.init items (some c.classes), ?_, rfl⟩
    simp

theorem all_lt_of_forall (v : List Nat) (n : Nat) (hv : ∀ i ∈ v, i < n) :
    v.all (fun i => i < n) = true := by
  simp only [List.all_eq_true, decide_eq_true_eq]
  exact hv

theorem getitemVec_base (c : ItemList) (v : List Nat) (hk : c.kind = CKind.base)
    (hv : ∀ i ∈ v, i < c.items.length) :
    c.getitemVec v = Except.ok
      { kind := CKind.base, items := v.map (fun i => c.items.getD i PyVal.none),
        createFunc := c.createFunc, path := c.path, labelCls := Option.none,
        xtra := index_row c.xtra v, classes := [] } := by
  unfold ItemList.getitemVec ItemList.new
  rw [hk, if_pos (all_lt_of_forall v c.items.length hv)]
  rfl

theorem getitemVec_nonbase (c : ItemList) (v : List Nat) (hk : c.kind ≠ CKind.base)
    (hv : ∀ i ∈ v, i < c.items.length) :
    c.getitemVec v = Except.error PyError.typeError := by
  unfold ItemList.getitemVec ItemList.new
  rw [if_pos (all_lt_of_forall v c.items.length hv)]
  cases h : c.kind
  · exact absurd h hk
  · simp
  · simp

theorem constructCls_items (k : CKind) (labels : List PyVal) :
    (constructCls k labels).items = labels := by
  cases k <;> rfl

theorem filter_length_split {α : Type} (l : List α) (p : α → Bool) :
    (l.filter p).length + (l.filter (fun a => !p a)).length = l.length := by
  induction l with
  | nil => rfl
  | cons a t ih => cases h : p a <;> simp [h] <;> omega

/-! ### C1: vector indexing -/

/-- A `CategoryList` over two items, no explicit classes. -/
def catAB : ItemList := CategoryList.init [PyVal.str "a", PyVal.str "b"] Option.none

/-- C1 counterexample: vector-indexing a `CategoryList` does not return a new
collection at all — the inherited `ItemList.__getitem__` passes the keyword
argument `xtra` to `self.new`, and `CategoryList.new(self, items)` does not
accept it, so the call raises `TypeError` even for the valid index array
`[0]`. -/
theorem categorylist_vector_index_typeerror :
    catAB.getitemVec [0] = Except.error PyError.typeError := rfl

/-- C1 (amended): for a base `ItemList`, indexing with a valid index array `v`
returns a new collection of the same concrete class whose length is the length
of `v`, containing exactly the selected raw items, with the side-table sliced
to the same indices; for `CategoryList` and `MultiCategoryList` the same call
raises `TypeError` because their overridden `new` does not accept the
side-table keyword argument. -/
theorem vector_index_amended (c : ItemList) (v : List Nat)
    (hv : ∀ i ∈ v, i < c.items.length) :
    (c.kind = CKind.base →
      ∃ c2, c.getitemVec v = Except.ok c2 ∧ c2.kind = c.kind
        ∧ c2.items = v.map (fun i => c.items.getD i PyVal.none)
        ∧ c2.items.length = v.length
        ∧ c2.xtra = index_row c.xtra v)
  ∧ (c.kind ≠ CKind.base → c.getitemVec v = Except.error PyError.typeError) := by
  constructor
  · intro hk
    exact ⟨_, getitemVec_base c v hk hv, by rw [hk], rfl, by simp, rfl⟩
  · intro hk
    exact getitemVec_nonbase c v hk hv

/-- A base `ItemList` over three items with a three-row side-table. -/
def baseABC : ItemList :=
  ItemList.init [PyVal.str "a", PyVal.str "b", PyVal.str "c"] Option.none []
    Option.none (some [PyVal.num 10, PyVal.num 20, PyVal.num 30])

theorem vector_index_amended_witness :
    (∀ i ∈ [2, 0], i < baseABC.items.length)
  ∧ ((baseABC.kind = CKind.base →
      ∃ c2, baseABC.getitemVec [2, 0] = Except.ok c2 ∧ c2.kind = baseABC.kind
        ∧ c2.items = [2, 0].map (fun i => baseABC.items.getD i PyVal.none)
        ∧ c2.items.length = [2, 0].length
        ∧ c2.xtra = index_row baseABC.xtra [2, 0])
    ∧ (baseABC.kind ≠ CKind.base →
        baseABC.getitemVec [2, 0] = Except.error PyError.typeError)) :=
  ⟨by decide, vector_index_amended baseABC [2, 0] (by decide)⟩

/-! ### C2: integer indexing and `get` -/

/-- C2 counterexample: `catAB` is a `CategoryList` with NO conversion function
set, yet `get(0)` does not return the raw item `"a"` unchanged — the
overridden `get` wraps it into a category value object through the
class-to-index mapping — so the raw-item clause of the claim fails off the
base class. -/
theorem categorylist_get_wraps_raw :
    catAB.createFunc = Option.none
  ∧ catAB.items.getD 0 PyVal.none = PyVal.str "a"
  ∧ catAB.get 0 = Except.ok (PyVal.cat 0 (PyVal.str "a"))
  ∧ catAB.get 0 ≠ Except.ok (PyVal.str "a") := by
  have hval : catAB.get 0 = Except.ok (PyVal.cat 0 (PyVal.str "a")) := rfl
  refine ⟨rfl, rfl, hval, fun h => ?_⟩
  have h2 := hval.symm.trans h
  simp at h2

/-- C2 (amended): for every collection and in-range integer `i`, `self[i]` is
exactly `self.get(i)`; and on the base class — but not on the category
subclasses, whose overridden `get` wraps the fetched value into a category
value object — `get(i)` is the conversion function applied to the i-th raw
item when one is set, else the raw item unchanged. -/
theorem int_index_eq_get (c : ItemList) (i : Nat) (hi : i < c.items.length) :
    c.getitemInt i = c.get i
  ∧ (c.kind = CKind.base →
      c.get i = Except.ok (match c.createFunc with
        | some f => f (c.items.getD i PyVal.none)
        | Option.none => c.items.getD i PyVal.none)) := by
  refine ⟨rfl, fun hk => ?_⟩
  have hsome : c.items.get? i = some (c.items.getD i PyVal.none) := by
    rw [List.getD_eq_getElem?_getD, List.get?_eq_getElem?]
    rw [List.getElem?_eq_getElem hi]
    rfl
  unfold ItemList.get ItemList.get_base
  rw [hk, hsome]

/-- A base `ItemList` whose conversion function is set. -/
def baseConv : ItemList :=
  ItemList.init [PyVal.str "a"] (some (fun _ => PyVal.str "X")) [] Option.none Option.none

theorem int_index_eq_get_witness :
    0 < baseConv.items.length
  ∧ (baseConv.getitemInt 0 = baseConv.get 0
    ∧ (baseConv.kind = CKind.base →
        baseConv.get 0 = Except.ok (match baseConv.createFunc with
          | some f => f (baseConv.items.getD 0 PyVal.none)
          | Option.none => baseConv.items.getD 0 PyVal.none))) :=
  ⟨by decide, int_index_eq_get baseConv 0 (by decide)⟩

/-! ### C3: splitting by an explicit validation-index set -/

/-- C3 counterexample: on a `CategoryList`, `split_by_idx` produces no
container at all — splitting vector-indexes the collection, hitting the
`TypeError` from the inherited `__getitem__` passing the `xtra` keyword that
the overridden `new` does not accept. -/
theorem categorylist_split_by_idx_typeerror :
    catAB.split_by_idx [0] = Except.error PyError.typeError := rfl

/-- C3 (amended): for every collection of `n` items and every
validation-index set `V`, the two scanned index halves satisfy
`len(train) + len(valid) = n`, are disjoint, each ascends in construction
order, the validation half is exactly the in-range members of `V` and the
train half its complement; on a base `ItemList` the split returns a container
carrying collections of those lengths, while on `CategoryList` and
`MultiCategoryList` it raises `TypeError` and produces no container. -/
theorem split_by_idx_partition (c : ItemList) (V : List Nat) :
    (splitTrainList c.items.length V).length + (splitValidList c.items.length V).length
        = c.items.length
  ∧ (∀ i, ¬(i ∈ splitTrainList c.items.length V ∧ i ∈ splitValidList c.items.length V))
  ∧ (splitTrainList c.items.length V).Pairwise (· < ·)
  ∧ (splitValidList c.items.length V).Pairwise (· < ·)
  ∧ (∀ i, i ∈ splitValidList c.items.length V ↔ (i < c.items.length ∧ i ∈ V))
  ∧ (∀ i, i ∈ splitTrainList c.items.length V ↔ (i < c.items.length ∧ i ∉ V))
  ∧ (c.kind = CKind.base →
      ∃ cont, c.split_by_idx V = Except.ok cont
        ∧ (∃ ctr, cont.train = Ds.il ctr
            ∧ ctr.items.length = (splitTrainList c.items.length V).length)
        ∧ (∃ cva, cont.valid = Ds.il cva
            ∧ cva.items.length = (splitValidList c.items.length V).length))
  ∧ (c.kind ≠ CKind.base → c.split_by_idx V = Except.error PyError.typeError) := by
  have hmemT : ∀ i ∈ splitTrainList c.items.length V, i < c.items.length := by
    intro i hi
    exact List.mem_range.mp (List.mem_filter.mp hi).1
  have hmemV : ∀ i ∈ splitValidList c.items.length V, i < c.items.length := by
    intro i hi
    exact List.mem_range.mp (List.mem_filter.mp hi).1
  refine ⟨?_, ?_, ?_, ?_, ?_, ?_, ?_, ?_⟩
  · have h := filter_length_split (List.range c.items.length) (fun i => decide (i ∈ V))
    simp only [splitTrainList, splitValidList, decide_not, List.length_range] at *
    omega
  · intro i hi
    obtain ⟨h1, h2⟩ := hi
    simp only [splitTrainList, List.mem_filter, decide_eq_true_eq] at h1
    simp only [splitValidList, List.mem_filter, decide_eq_true_eq] at h2
    exact h1.2 h2.2
  · exact (List.pairwise_lt_range c.items.length).filter _
  · exact (List.pairwise_lt_range c.items.length).filter _
  · intro i
    simp [splitValidList, List.mem_filter, List.mem_range]
  · intro i
    simp [splitTrainList, List.mem_filter, List.mem_range]
  · intro hk
    unfold ItemList.split_by_idx ItemList.split_by_idxs
    rw [getitemVec_base c _ hk hmemT, getitemVec_base c _ hk hmemV]
    refine ⟨_, rfl, ?_, ?_⟩
    · exact ⟨_, rfl, by simp⟩
    · exact ⟨_, rfl, by simp⟩
  · intro hk
    unfold ItemList.split_by_idx ItemList.split_by_idxs
    rw [getitemVec_nonbase c _ hk hmemT]
    rfl

theorem split_by_idx_partition_witness :
    (splitTrainList baseABC.items.length [1, 5]).length
        + (splitValidList baseABC.items.length [1, 5]).length = baseABC.items.length
  ∧ (∀ i, ¬(i ∈ splitTrainList baseABC.items.length [1, 5]
      ∧ i ∈ splitValidList baseABC.items.length [1, 5]))
  ∧ (splitTrainList baseABC.items.length [1, 5]).Pairwise (· < ·)
  ∧ (splitValidList baseABC.items.length [1, 5]).Pairwise (· < ·)
  ∧ (∀ i, i ∈ splitValidList baseABC.items.length [1, 5]
      ↔ (i < baseABC.items.length ∧ i ∈ [1, 5]))
  ∧ (∀ i, i ∈ splitTrainList baseABC.items.length [1, 5]
      ↔ (i < baseABC.items.length ∧ i ∉ [1, 5]))
  ∧ (baseABC.kind = CKind.base →
      ∃ cont, baseABC.split_by_idx [1, 5] = Except.ok cont
        ∧ (∃ ctr, cont.train = Ds.il ctr
            ∧ ctr.items.length = (splitTrainList baseABC.items.length [1, 5]).length)
        ∧ (∃ cva, cont.valid = Ds.il cva
            ∧ cva.items.length = (splitValidList baseABC.items.length [1, 5]).length))
  ∧ (baseABC.kind ≠ CKind.base →
      baseABC.split_by_idx [1, 5] = Except.error PyError.typeError) :=
  split_by_idx_partition baseABC [1, 5]

/-! ### C4: method forwarding on the split container -/

/-- C4: when the attribute `k` resolves on train (and valid) to a bound
method, the forwarded call invokes it on both train and valid with identical
arguments, never touches test, replaces `self.train` and `self.valid` with the
two results, returns the container itself, and promotes the runtime class to
`LabelLists` exactly when the new train is a `LabelList`; the promotion is
one-way. -/
theorem itemlists_forwarding (c : ItemLists) (lookup : Ds → String → Option Attr)
    (k : String) (args : List PyVal) (ft fv : List PyVal → Ds)
    (hft : lookup c.train k = some (Attr.method ft))
    (hfv : lookup c.valid k = some (Attr.method fv)) :
    c.getattrCall lookup k args = Except.ok (Sum.inr { c with train := ft args, valid := fv args, ckind := if (ft args).isLL then ContKind.labeled else c.ckind })
  ∧ (∀ c2, c.getattrCall lookup k args = Except.ok (Sum.inr c2) →
      c2.test = c.test ∧ c2.train = ft args ∧ c2.valid = fv args)
  ∧ (c.ckind = ContKind.labeled →
      ∀ c2, c.getattrCall lookup k args = Except.ok (Sum.inr c2) →
        c2.ckind = ContKind.labeled)
  ∧ ((ft args).isLL = true →
      ∀ c2, c.getattrCall lookup k args = Except.ok (Sum.inr c2) →
        c2.ckind = ContKind.labeled)
  ∧ (c.ckind = ContKind.raw →
      ∀ c2, c.getattrCall lookup k args = Except.ok (Sum.inr c2) →
        (c2.ckind = ContKind.labeled ↔ (ft args).isLL = true)) := by
  have hmain : c.getattrCall lookup k args = Except.ok (Sum.inr { c with train := ft args, valid := fv args, ckind := if (ft args).isLL then ContKind.labeled else c.ckind }) := by
    unfold ItemLists.getattrCall
    rw [hft, hfv]
  refine ⟨hmain, ?_, ?_, ?_, ?_⟩
  · intro c2 h
    have h2 := hmain.symm.trans h
    rw [Except.ok.injEq, Sum.inr.injEq] at h2
    rw [← h2]
    exact ⟨rfl, rfl, rfl⟩
  · intro hlab c2 h
    have h2 := hmain.symm.trans h
    rw [Except.ok.injEq, Sum.inr.injEq] at h2
    rw [← h2]
    by_cases hll : (ft args).isLL = true
    · simp [hll]
    · simp [hll, hlab]
  · intro hll c2 h
    have h2 := hmain.symm.trans h
    rw [Except.ok.injEq, Sum.inr.injEq] at h2
    rw [← h2]
    simp [hll]
  · intro hraw c2 h
    have h2 := hmain.symm.trans h
    rw [Except.ok.injEq, Sum.inr.injEq] at h2
    rw [← h2]
    by_cases hll : (ft args).isLL = true
    · simp [hll]
    · simp [hll, hraw]

/-- An attribute model resolving every name to the bound `label_from_folder`
method of the receiver. -/
def lffLookup : Ds → String → Option Attr := fun d _k =>
  some (Attr.method (fun _args => match d with
    | .il c => .ll (c.label_from_folder Option.none)
    | .ll l => .ll l))

/-- A raw split container over two base collections. -/
def c4Cont : ItemLists :=
  { path := [], train := Ds.il baseABC, valid := Ds.il baseConv,
    test := Option.none, ckind := ContKind.raw }

/-- The bound method `lffLookup` yields on `c4Cont`'s train side. -/
def c4F : List PyVal → Ds := fun _args => Ds.ll (baseABC.label_from_folder Option.none)

/-- The bound method `lffLookup` yields on `c4Cont`'s valid side. -/
def c4Fv : List PyVal → Ds := fun _args => Ds.ll (baseConv.label_from_folder Option.none)

theorem itemlists_forwarding_witness :
    lffLookup c4Cont.train "label_from_folder" = some (Attr.method c4F)
  ∧ lffLookup c4Cont.valid "label_from_folder" = some (Attr.method c4Fv)
  ∧ (c4Cont.getattrCall lffLookup "label_from_folder" [] = Except.ok (Sum.inr { c4Cont with train := c4F [], valid := c4Fv [], ckind := if (c4F []).isLL then ContKind.labeled else c4Cont.ckind })
    ∧ (∀ c2, c4Cont.getattrCall lffLookup "label_from_folder" [] = Except.ok (Sum.inr c2) →
        c2.test = c4Cont.test ∧ c2.train = c4F [] ∧ c2.valid = c4Fv [])
    ∧ (c4Cont.ckind = ContKind.labeled →
        ∀ c2, c4Cont.getattrCall lffLookup "label_from_folder" [] = Except.ok (Sum.inr c2) →
          c2.ckind = ContKind.labeled)
    ∧ ((c4F []).isLL = true →
        ∀ c2, c4Cont.getattrCall lffLookup "label_from_folder" [] = Except.ok (Sum.inr c2) →
          c2.ckind = ContKind.labeled)
    ∧ (c4Cont.ckind = ContKind.raw →
        ∀ c2, c4Cont.getattrCall lffLookup "label_from_folder" [] = Except.ok (Sum.inr c2) →
          (c2.ckind = ContKind.labeled ↔ (c4F []).isLL = true))) :=
  ⟨rfl, rfl, itemlists_forwarding c4Cont lffLookup "label_from_folder" [] c4F c4Fv rfl rfl⟩

/-! ### C5: random split determinism and cutoff -/

theorem splitValidList_perm (n : Nat) (L : List Nat) (hL : L.Nodup)
    (hmem : ∀ i ∈ L, i < n) : (splitValidList n L).Perm L := by
  apply List.perm_of_nodup_nodup_toFinset_eq
  · exact (List.nodup_range n).filter _
  · exact hL
  · ext i
    simp only [List.mem_toFinset, splitValidList, List.mem_filter, List.mem_range,
      decide_eq_true_eq]
    exact ⟨fun h => h.2, fun h => ⟨hmem i h, h⟩⟩

/-- C5: with a fixed seed, `random_split_by_pct` does not depend on the prior
generator state (so two runs with the same seed and the same `valid_pct`
produce identical results); the cutoff `int(valid_pct * n)` is
`floor(valid_pct * n)` for a non-negative fraction, and the validation index
set is exactly (a reordering of) the first `floor(valid_pct * n)` entries of
the seeded permutation. -/
theorem random_split_deterministic (c : ItemList) (rng : NpRandom) (st1 st2 : Nat)
    (pct : ℚ) (s : Nat) (hpct : 0 ≤ pct)
    (hperm : (rng.permFn (rng.seedFn s) c.items.length).Perm (List.range c.items.length)) :
    c.random_split_by_pct rng st1 pct (some s) = c.random_split_by_pct rng st2 pct (some s)
  ∧ pyInt (pct * (c.items.length : ℚ)) = ⌊pct * (c.items.length : ℚ)⌋
  ∧ pySliceTo (rng.permFn (rng.seedFn s) c.items.length) (pyInt (pct * (c.items.length : ℚ)))
      = (rng.permFn (rng.seedFn s) c.items.length).take (⌊pct * (c.items.length : ℚ)⌋).toNat
  ∧ (splitValidList c.items.length
      (pySliceTo (rng.permFn (rng.seedFn s) c.items.length)
        (pyInt (pct * (c.items.length : ℚ))))).Perm
      ((rng.permFn (rng.seedFn s) c.items.length).take (⌊pct * (c.items.length : ℚ)⌋).toNat) := by
  have hq : (0 : ℚ) ≤ pct * (c.items.length : ℚ) := mul_nonneg hpct (by positivity)
  have hint : pyInt (pct * (c.items.length : ℚ)) = ⌊pct * (c.items.length : ℚ)⌋ := by
    unfold pyInt
    rw [if_pos hq]
  have hfl : (0 : Int) ≤ ⌊pct * (c.items.length : ℚ)⌋ := Int.floor_nonneg.mpr hq
  have hslice : pySliceTo (rng.permFn (rng.seedFn s) c.items.length)
      (pyInt (pct * (c.items.length : ℚ)))
      = (rng.permFn (rng.seedFn s) c.items.length).take
          (⌊pct * (c.items.length : ℚ)⌋).toNat := by
    rw [hint]
    unfold pySliceTo
    rw [if_neg (by omega)]
  have hnd : (rng.permFn (rng.seedFn s) c.items.length).Nodup :=
    (hperm.nodup_iff).mpr (List.nodup_range c.items.length)
  refine ⟨rfl, hint, hslice, ?_⟩
  rw [hslice]
  apply splitValidList_perm
  · exact hnd.sublist (List.take_sublist _ _)
  · intro i hi
    exact List.mem_range.mp ((hperm.mem_iff).mp (List.mem_of_mem_take hi))

/-- A deterministic stand-in for the external `np.random` generator. -/
def wRng : NpRandom :=
  { seedFn := fun s => s, permFn := fun _st n => (List.range n).reverse }

theorem random_split_deterministic_witness :
    (0 : ℚ) ≤ 1/3
  ∧ (wRng.permFn (wRng.seedFn 7) baseABC.items.length).Perm (List.range baseABC.items.length)
  ∧ (baseABC.random_split_by_pct wRng 0 (1/3) (some 7)
        = baseABC.random_split_by_pct wRng 99 (1/3) (some 7)
    ∧ pyInt ((1/3) * (baseABC.items.length : ℚ)) = ⌊(1/3) * (baseABC.items.length : ℚ)⌋
    ∧ pySliceTo (wRng.permFn (wRng.seedFn 7) baseABC.items.length)
          (pyInt ((1/3) * (baseABC.items.length : ℚ)))
        = (wRng.permFn (wRng.seedFn 7) baseABC.items.length).take
            (⌊(1/3) * (baseABC.items.length : ℚ)⌋).toNat
    ∧ (splitValidList baseABC.items.length
        (pySliceTo (wRng.permFn (wRng.seedFn 7) baseABC.items.length)
          (pyInt ((1/3) * (baseABC.items.length : ℚ))))).Perm
        ((wRng.permFn (wRng.seedFn 7) baseABC.items.length).take
            (⌊(1/3) * (baseABC.items.length : ℚ)⌋).toNat)) :=
  ⟨by norm_num, by decide,
    random_split_deterministic baseABC wRng 0 99 (1/3) 7 (by norm_num) (by decide)⟩

/-! ### C6: class-table identity across splits -/

/-- The items of the end-to-end scenario of the spec: `train/cat/1.png`,
`train/dog/2.png`, `valid/cat/3.png` under the base path `data`. -/
def scItems : List PyVal :=
  [PyVal.pth ["data", "train", "cat", "1.png"],
   PyVal.pth ["data", "train", "dog", "2.png"],
   PyVal.pth ["data", "valid", "cat", "3.png"]]

/-- The scenario's base collection. -/
def scIL : ItemList := ItemList.init scItems Option.none ["data"] Option.none Option.none

/-- `split_by_folder()` on the scenario collection. -/
def scSplit : Except PyError ItemLists := scIL.split_by_folder "train" "valid"

/-- `label_from_folder()` forwarded through the container. -/
def scLabeled : Except PyError (PyVal ⊕ ItemLists) :=
  match scSplit with
  | .ok cont => cont.getattrCall lffLookup "label_from_folder" []
  | .error e => .error e

/-- The `classes` table of the labeled train side of the scenario. -/
def scTrainClasses : List PyVal :=
  match scLabeled with
  | .ok (.inr c) =>
      match c.train with
      | .ll l => l.y.classes
      | _ => []
  | _ => []

/-- The `classes` table of the labeled valid side of the scenario. -/
def scValidClasses : List PyVal :=
  match scLabeled with
  | .ok (.inr c) =>
      match c.valid with
      | .ll l => l.y.classes
      | _ => []
  | _ => []

/-- The length of the labeled train side of the scenario. -/
def scTrainLen : Nat :=
  match scLabeled with
  | .ok (.inr c) =>
      match c.train with
      | .ll l => l.len
      | _ => 0
  | _ => 0

/-- The length of the labeled valid side of the scenario. -/
def scValidLen : Nat :=
  match scLabeled with
  | .ok (.inr c) =>
      match c.valid with
      | .ll l => l.len
      | _ => 0
  | _ => 0

/-- C6 (code-bug evidence): running `split_by_folder` then `label_from_folder`
on `train/cat/1.png`, `train/dog/2.png`, `valid/cat/3.png` gives the expected
lengths (train 2, valid 1), but each side derives its own `classes` table from
its own labels — train gets `["cat", "dog"]` while valid gets `["cat"]` — so
the class tables of the two sides diverge, contrary to the claimed invariant. -/
theorem split_label_classes_diverge :
    scTrainLen = 2 ∧ scValidLen = 1
  ∧ scTrainClasses = [PyVal.str "cat", PyVal.str "dog"]
  ∧ scValidClasses = [PyVal.str "cat"]
  ∧ scTrainClasses ≠ scValidClasses := by
  refine ⟨rfl, rfl, rfl, rfl, ?_⟩
  decide

/-! ### More helper lemmas -/

theorem pbind_ok {α β : Type} (a : α) (f : α → Except PyError β) :
    Bind.bind (Except.ok a) f = f a := rfl

theorem pbind_err {α β : Type} (e : PyError) (f : α → Except PyError β) :
    Bind.bind (Except.error e : Except PyError α) f = Except.error e := rfl

theorem create_label_list_y_items (c : ItemList) (labels : List PyVal)
    (lcls : Option CKind) : (c.create_label_list labels lcls).y.items = labels := by
  unfold ItemList.create_label_list
  exact constructCls_items _ _

theorem reLabels_all_ok (pat : RePat) (fb : Bool) (items : List PyVal)
    (h : ∀ o ∈ items, (pat.search (reSel fb o)).isSome) :
    reLabels pat fb items
      = Except.ok (items.map (fun o => PyVal.str ((pat.search (reSel fb o)).getD ""))) := by
  induction items with
  | nil => rfl
  | cons o os ih =>
    obtain ⟨g, hg⟩ := Option.isSome_iff_exists.mp (h o (by simp))
    have ih2 := ih (fun p hp => h p (by simp [hp]))
    simp [reLabels, hg, ih2, pbind_ok]

theorem reLabels_first_fail (pat : RePat) (fb : Bool) (pre : List PyVal) (o : PyVal)
    (post : List PyVal) (hpre : ∀ p ∈ pre, (pat.search (reSel fb p)).isSome)
    (ho : pat.search (reSel fb o) = Option.none) :
    reLabels pat fb (pre ++ o :: post)
      = Except.error (.assertionError (reMsg pat.src (reSel fb o))) := by
  induction pre with
  | nil => simp [reLabels, ho]
  | cons p ps ih =>
    obtain ⟨g, hg⟩ := Option.isSome_iff_exists.mp (hpre p (by simp))
    have ih2 := ih (fun q hq => hpre q (by simp [hq]))
    simp [reLabels, hg, ih2, pbind_err]

/-- C7: for items all matching the pattern, `label_from_re` labels each item
with the first capture group of the match on its selected string (name or
full path), one label per item; at the first non-matching item it raises an
assertion error — never skipping the item — whose message contains both the
pattern text and the searched input string. -/
theorem label_from_re_spec (c : ItemList) (pat : RePat) (lcls : Option CKind) (fb : Bool) :
    ((∀ o ∈ c.items, (pat.search (reSel fb o)).isSome) →
      ∃ ll, c.label_from_re pat lcls fb = Except.ok ll
        ∧ ll.y.items = c.items.map (fun o => PyVal.str ((pat.search (reSel fb o)).getD ""))
        ∧ ll.y.items.length = c.items.length)
  ∧ (∀ pre o post, c.items = pre ++ o :: post →
      (∀ p ∈ pre, (pat.search (reSel fb p)).isSome) →
      pat.search (reSel fb o) = Option.none →
      c.label_from_re pat lcls fb
          = Except.error (.assertionError (reMsg pat.src (reSel fb o)))
        ∧ (∃ l r, reMsg pat.src (reSel fb o) = l ++ (pat.src ++ r))
        ∧ (∃ l2 r2, reMsg pat.src (reSel fb o) = l2 ++ (reSel fb o ++ r2))) := by
  constructor
  · intro h
    refine ⟨c.create_label_list
        (c.items.map (fun o => PyVal.str ((pat.search (reSel fb o)).getD ""))) lcls,
      ?_, ?_, ?_⟩
    · unfold ItemList.label_from_re
      rw [reLabels_all_ok pat fb c.items h]
      rfl
    · exact create_label_list_y_items _ _ _
    · rw [create_label_list_y_items]
      simp
  · intro pre o post hsplit hpre ho
    refine ⟨?_, ?_, ?_⟩
    · unfold ItemList.label_from_re
      rw [hsplit, reLabels_first_fail pat fb pre o post hpre ho]
      rfl
    · refine ⟨"Failed to find \x22" ++ "re.compile(",
        ")" ++ ("\x22 in \x22" ++ (reSel fb o ++ "\x22")), ?_⟩
      simp [reMsg, patRepr, String.append_assoc]
      rw [← String.append_assoc]
      congr 1
    · refine ⟨"Failed to find \x22" ++ (patRepr pat.src ++ "\x22 in \x22"), "\x22", ?_⟩
      simp [reMsg, String.append_assoc]

/-- A pattern on digit-free names: matches exactly the strings of length two,
capturing the first character. -/
def wPat : RePat :=
  { src := "(.).", search := fun s => if s.length = 2 then some (s.take 1) else Option.none }

/-- Items for the regex witness: one matching name and, for the failure side,
a collection with a non-matching head. -/
def wReItems : ItemList :=
  ItemList.init [PyVal.pth ["d", "ab"]] Option.none [] Option.none Option.none

/-- A collection whose single item does not match `wPat`. -/
def wReBad : ItemList :=
  ItemList.init [PyVal.pth ["d", "abc"]] Option.none [] Option.none Option.none

theorem label_from_re_spec_witness :
    (∀ o ∈ wReItems.items, (wPat.search (reSel false o)).isSome)
  ∧ (∃ ll, wReItems.label_from_re wPat Option.none false = Except.ok ll
      ∧ ll.y.items = wReItems.items.map
          (fun o => PyVal.str ((wPat.search (reSel false o)).getD ""))
      ∧ ll.y.items.length = wReItems.items.length)
  ∧ (wReBad.items = [] ++ PyVal.pth ["d", "abc"] :: [] →
      (∀ p ∈ ([] : List PyVal), (wPat.search (reSel false p)).isSome) →
      wPat.search (reSel false (PyVal.pth ["d", "abc"])) = Option.none →
      wReBad.label_from_re wPat Option.none false
          = Except.error (.assertionError
              (reMsg wPat.src (reSel false (PyVal.pth ["d", "abc"]))))
        ∧ (∃ l r, reMsg wPat.src (reSel false (PyVal.pth ["d", "abc"]))
            = l ++ (wPat.src ++ r))
        ∧ (∃ l2 r2, reMsg wPat.src (reSel false (PyVal.pth ["d", "abc"]))
            = l2 ++ (reSel false (PyVal.pth ["d", "abc"]) ++ r2))) :=
  ⟨by decide, ((label_from_re_spec wReItems wPat Option.none false).1 (by decide)),
    (label_from_re_spec wReBad wPat Option.none false).2 [] (PyVal.pth ["d", "abc"]) []⟩

/-! ### C8: add_test label reuse and failure condition -/

theorem get_of_empty (c : ItemList) (h : c.items = []) :
    c.get 0 = Except.error PyError.indexError := by
  cases hk : c.kind <;>
    simp [ItemList.get, ItemList.get_base, hk, h, pbind_err]

/-- The labeled training side of the counterexample container: one item. -/
def c8Train : LabelList :=
  { x := ItemList.init [PyVal.str "t1"] Option.none [] Option.none Option.none,
    y := CategoryList.init [PyVal.str "cat"] Option.none, tfmY := false }

/-- The labeled validation side of the counterexample container: EMPTY. -/
def c8Valid : LabelList :=
  { x := ItemList.init [] Option.none [] Option.none Option.none,
    y := CategoryList.init [] (some [PyVal.str "cat"]), tfmY := false }

/-- A labeled container with an empty validation set and a one-item training
set. -/
def c8Cont : ItemLists :=
  { path := [], train := Ds.ll c8Train, valid := Ds.ll c8Valid,
    test := Option.none, ckind := ContKind.labeled }

/-- C8 counterexample: on a labeled container whose validation collection is
empty (but whose training collection is not), `add_test` without a label does
NOT fail — it succeeds and labels the synthesized entry with the first
training item's label — refuting "fails exactly when the validation
collection is empty". -/
theorem add_test_empty_valid_succeeds :
    c8Valid.x.items.length = 0
  ∧ exOk (c8Cont.add_test id [PyVal.str "z"] Option.none) = true := by
  constructor
  · rfl
  · rfl

/-- C8 (amended): `add_test` without an explicit label assigns the first
training pair's label value to every synthesized test entry, and fails
exactly when the training collection is empty (assuming fetching the first
training pair succeeds whenever training is non-empty). -/
theorem add_test_amended (c : ItemLists) (tr va : LabelList) (tfm : PyVal → PyVal)
    (items : List PyVal) (htr : c.train = Ds.ll tr) (hva : c.valid = Ds.ll va)
    (hget : tr.x.items ≠ [] → ∃ p, tr.getitemInt tfm 0 = Except.ok p) :
    (exOk (c.add_test tfm items Option.none) = true ↔ tr.x.items ≠ [])
  ∧ (∀ p, tr.getitemInt tfm 0 = Except.ok p →
      ∃ c2 t, c.add_test tfm items Option.none = Except.ok c2
        ∧ c2.test = some (Ds.ll t)
        ∧ t.x.items = items
        ∧ t.y.items = List.replicate items.length p.2
        ∧ c2.train = c.train ∧ c2.valid = c.valid) := by
  have part2 : ∀ p, tr.getitemInt tfm 0 = Except.ok p →
      ∃ c2 t, c.add_test tfm items Option.none = Except.ok c2
        ∧ c2.test = some (Ds.ll t)
        ∧ t.x.items = items
        ∧ t.y.items = List.replicate items.length p.2
        ∧ c2.train = c.train ∧ c2.valid = c.valid := by
    intro p hp
    obtain ⟨x2, hx2, hx2i⟩ := new_none_ok va.x items
    obtain ⟨y2, hy2, hy2i⟩ := new_none_ok va.y (List.replicate x2.items.length p.2)
    have hmain : c.add_test tfm items Option.none
        = Except.ok { c with test := some (Ds.ll { x := x2, y := y2, tfmY := va.tfmY }) } := by
      simp only [ItemLists.add_test, htr, hva, hp, pbind_ok, hx2, hy2]
    refine ⟨_, _, hmain, rfl, hx2i, ?_, rfl, rfl⟩
    rw [hy2i, hx2i]
  refine ⟨⟨?_, ?_⟩, part2⟩
  · intro hok hemp
    have hgi : tr.getitemInt tfm 0 = Except.error PyError.indexError := by
      simp only [LabelList.getitemInt, get_of_empty tr.x hemp, pbind_err]
    have herr : c.add_test tfm items Option.none = Except.error PyError.indexError := by
      simp only [ItemLists.add_test, htr, hva, hgi, pbind_err]
    rw [herr] at hok
    exact absurd hok (by simp [exOk])
  · intro hne
    obtain ⟨p, hp⟩ := hget hne
    obtain ⟨c2, t, hok2, _⟩ := part2 p hp
    rw [hok2]
    rfl

/-- A labeled container with non-empty training and validation sides. -/
def c8Cont2 : ItemLists :=
  { path := [], train := Ds.ll c8Train, valid := Ds.ll c8Train,
    test := Option.none, ckind := ContKind.labeled }

theorem add_test_amended_witness :
    c8Cont2.train = Ds.ll c8Train
  ∧ c8Cont2.valid = Ds.ll c8Train
  ∧ (c8Train.x.items ≠ [] → ∃ p, c8Train.getitemInt id 0 = Except.ok p)
  ∧ ((exOk (c8Cont2.add_test id [PyVal.str "z"] Option.none) = true ↔ c8Train.x.items ≠ [])
    ∧ (∀ p, c8Train.getitemInt id 0 = Except.ok p →
        ∃ c2 t, c8Cont2.add_test id [PyVal.str "z"] Option.none = Except.ok c2
          ∧ c2.test = some (Ds.ll t)
          ∧ t.x.items = [PyVal.str "z"]
          ∧ t.y.items = List.replicate [PyVal.str "z"].length p.2
          ∧ c2.train = c8Cont2.train ∧ c2.valid = c8Cont2.valid)) :=
  ⟨rfl, rfl, fun _ => ⟨(PyVal.str "t1", PyVal.cat 0 (PyVal.str "cat")), rfl⟩,
    add_test_amended c8Cont2 c8Train c8Train id [PyVal.str "z"] rfl rfl
      (fun _ => ⟨(PyVal.str "t1", PyVal.cat 0 (PyVal.str "cat")), rfl⟩)⟩

/-! ### C9: the paired-dataset length invariant -/

/-- C10: the fallback `getattr(self.x, k, None)` conflates a missing attribute
with an attribute whose value is `None`, so whenever `x`'s value for `k` is
`None` — including when `x` actually has the attribute `k` bound to `None` —
the lookup resolves on `y` instead of returning `None`. -/
theorem labellist_getattr_none_shadowed (xA yA : List (String × PyVal)) (k : String) :
    (xA.lookup k = some PyVal.none →
      LabelList.getattrFB xA yA k = pyGetattr yA k)
  ∧ (xA.lookup k = Option.none →
      LabelList.getattrFB xA yA k = pyGetattr yA k) := by
  constructor
  · intro hx
    unfold LabelList.getattrFB pyGetattrD
    rw [hx]
    simp
  · intro hx
    unfold LabelList.getattrFB pyGetattrD
    rw [hx]
    simp

theorem labellist_getattr_none_shadowed_witness :
    ([("foo", PyVal.none)].lookup "foo" = some PyVal.none)
  ∧ LabelList.getattrFB [("foo", PyVal.none)] [("foo", PyVal.str "y")] "foo"
      = pyGetattr [("foo", PyVal.str "y")] "foo" :=
  ⟨by decide,
    (labellist_getattr_none_shadowed [("foo", PyVal.none)] [("foo", PyVal.str "y")] "foo").1
      (by decide)⟩

end DataBlock
